import Mathlib

/-!
Verification of the Matching & Triage Engine of the epidemic-diseases
Q&A app (`streamlit_app.py`).

The embedding models Python strings as Lean `String` (operating on their
`data : List Char`), Python dicts as insertion-ordered association lists
(`dictInsert` updates an existing key in place, otherwise appends — the
semantics of CPython dict assignment), and the module-level registration
calls as a fold building the `KB` association list.
-/

/-- The disease record of the knowledge base (dataclass `DiseaseInfo`). -/
structure DiseaseInfo where
  name : String
  common_symptoms : List String
  incubation_days : String
  transmission : String
  key_tests : List String
  typical_course : String
  supportive_care : List String
  treatment_notes_safe : List String
  avoid_notes : List String
  prevention : List String
  red_flags_specific : List String
  keywords : List String
deriving DecidableEq

/-- Lowercase a single character; embeds Python `str.lower` on the
basic-latin range (the only range the knowledge base uses). -/
def lowerChar (c : Char) : Char := Char.toLower c

/-- Lowercase a string, as a character list (`s.lower()`). -/
def lowerList (s : String) : List Char := s.data.map lowerChar

/-- Lowercase a string (`s.lower()`). -/
def strLower (s : String) : String := ⟨s.data.map lowerChar⟩

/-- Insertion-ordered dictionary update: assigning to an existing key
replaces its value in place, otherwise the binding is appended
(CPython dict assignment semantics). -/
def dictInsert (k : String) (v : DiseaseInfo) :
    List (String × DiseaseInfo) → List (String × DiseaseInfo)
  | [] => [(k, v)]
  | (k₀, v₀) :: rest =>
    if k₀ = k then (k, v) :: rest else (k₀, v₀) :: dictInsert k v rest

/-- Dictionary lookup (`m[k]`, as an option). -/
def dictGet (k : String) : List (String × DiseaseInfo) → Option DiseaseInfo
  | [] => none
  | (k₀, v₀) :: rest => if k₀ = k then some v₀ else dictGet k rest

/-- Function `add_disease`: register a record under its lowercased canonical name
and under each lowercased alias keyword (`KB[d.name.lower()] = d;
for k in d.keywords: KB[k.lower()] = d`). -/
def add_disease (d : DiseaseInfo) (kb : List (String × DiseaseInfo)) :
    List (String × DiseaseInfo) :=
  d.keywords.foldl (fun m k => dictInsert (strLower k) d m)
    (dictInsert (strLower d.name) d kb)

/-- KB record for COVID-19, as declared in the source. -/
def covid19 : DiseaseInfo where
  name := "COVID-19"
  common_symptoms := ["fever", "cough", "fatigue", "sore throat", "loss of taste or smell", "headache", "muscle aches", "congestion", "shortness of breath"]
  incubation_days := "2–14 days (often 3–5)"
  transmission := "Respiratory droplets/aerosols; close contact; shared indoor air"
  key_tests := ["Rapid antigen test", "PCR test"]
  typical_course := "Mild to moderate in most; risk higher with age, pregnancy, or comorbidities."
  supportive_care := ["Hydration and rest", "Fever control (acetaminophen/paracetamol if not contraindicated)", "Masking and isolation per local guidance"]
  treatment_notes_safe := ["High-risk individuals may be eligible for antivirals (clinician-prescribed).", "Monitor oxygen saturation if available; seek care if < 92–94% or worsening."]
  avoid_notes := ["Avoid unnecessary antibiotics (viral illness)."]
  prevention := ["Vaccination per local guidelines", "Ventilation, masking in crowded indoor settings", "Hand hygiene"]
  red_flags_specific := ["Worsening shortness of breath", "Oxygen saturation < 92–94% on room air"]
  keywords := ["covid", "sars-cov-2", "coronavirus"]

/-- KB record for Influenza, as declared in the source. -/
def influenza : DiseaseInfo where
  name := "Influenza"
  common_symptoms := ["fever", "chills", "cough", "sore throat", "runny nose", "muscle aches", "headache", "fatigue"]
  incubation_days := "1–4 days"
  transmission := "Respiratory droplets/aerosols; contact with contaminated surfaces"
  key_tests := ["Rapid influenza diagnostic test", "PCR"]
  typical_course := "Abrupt onset; usually resolves in 3–7 days, fatigue may last longer."
  supportive_care := ["Hydration, rest", "Acetaminophen/paracetamol for fever and pain if not contraindicated"]
  treatment_notes_safe := ["Antivirals may be prescribed for high-risk patients if started early (clinician decision)."]
  avoid_notes := ["Avoid unnecessary antibiotics."]
  prevention := ["Seasonal vaccination", "Respiratory etiquette"]
  red_flags_specific := ["Shortness of breath", "Persistent high fever", "Chest pain", "Severe weakness"]
  keywords := ["flu", "influenza"]

/-- KB record for Dengue, as declared in the source. -/
def dengue : DiseaseInfo where
  name := "Dengue"
  common_symptoms := ["fever", "severe headache", "pain behind the eyes", "muscle/joint pain", "nausea", "vomiting", "rash"]
  incubation_days := "4–10 days"
  transmission := "Aedes mosquitoes"
  key_tests := ["NS1 antigen", "IgM/IgG serology", "PCR (early)"]
  typical_course := "Febrile phase 2–7 days; may progress to critical phase (plasma leakage)."
  supportive_care := ["Hydration with oral rehydration solution (ORS)", "Acetaminophen/paracetamol for fever if not contraindicated", "Close monitoring for warning signs (abdominal pain, bleeding, lethargy)"]
  treatment_notes_safe := ["No NSAIDs/aspirin (bleeding risk).", "Assess hematocrit/platelets in clinical care."]
  avoid_notes := ["Avoid ibuprofen, naproxen, aspirin."]
  prevention := ["Eliminate standing water", "Mosquito repellents, nets, long sleeves"]
  red_flags_specific := ["Bleeding", "Severe abdominal pain", "Persistent vomiting", "Lethargy/restlessness"]
  keywords := ["dengue fever"]

/-- KB record for Malaria, as declared in the source. -/
def malaria : DiseaseInfo where
  name := "Malaria"
  common_symptoms := ["fever (often periodic)", "chills", "sweats", "headache", "nausea", "vomiting", "fatigue"]
  incubation_days := "7–30+ days depending on species"
  transmission := "Anopheles mosquitoes (parasite Plasmodium)"
  key_tests := ["Rapid diagnostic test (RDT)", "Blood smear microscopy"]
  typical_course := "Can be severe; P. falciparum may rapidly progress."
  supportive_care := ["Hydration and fever control (acetaminophen if not contraindicated)"]
  treatment_notes_safe := ["Requires clinician-prescribed antimalarials based on species/severity and local resistance.", "Urgent care for suspected severe malaria."]
  avoid_notes := ["Do not self-treat without testing and medical guidance."]
  prevention := ["Repellents, nets", "Chemoprophylaxis for travelers when indicated"]
  red_flags_specific := ["Confusion", "Seizures", "Severe anemia", "Jaundice", "Respiratory distress"]
  keywords := ["plasmodium"]

/-- KB record for Cholera, as declared in the source. -/
def cholera : DiseaseInfo where
  name := "Cholera"
  common_symptoms := ["profuse watery diarrhea (rice-water stool)", "vomiting", "leg cramps", "thirst"]
  incubation_days := "12 hours–5 days"
  transmission := "Fecal-oral via contaminated water/food"
  key_tests := ["Stool culture/rapid tests per local protocols"]
  typical_course := "Can cause rapid dehydration and shock if untreated."
  supportive_care := ["Immediate oral rehydration solution (ORS)", "Seek IV fluids for severe dehydration"]
  treatment_notes_safe := ["Clinician may prescribe antibiotics in moderate/severe cases to reduce volume and duration."]
  avoid_notes := ["Avoid anti-diarrheals that reduce gut motility unless advised by a clinician."]
  prevention := ["Safe water, sanitation, hand hygiene", "Oral cholera vaccines where available"]
  red_flags_specific := ["Sunken eyes, very little/no urination, lethargy, weak pulse"]
  keywords := ["vibrio cholerae"]

/-- KB record for Measles, as declared in the source. -/
def measles : DiseaseInfo where
  name := "Measles"
  common_symptoms := ["fever", "cough", "runny nose", "conjunctivitis", "Koplik spots", "rash (face → body)"]
  incubation_days := "7–21 days"
  transmission := "Highly contagious respiratory droplets/aerosols"
  key_tests := ["Measles IgM serology", "PCR"]
  typical_course := "Rash appears ~day 3–5 of illness; complications possible."
  supportive_care := ["Hydration, rest", "Acetaminophen for fever if not contraindicated", "Vitamin A supplementation may be recommended by clinicians"]
  treatment_notes_safe := ["Isolation to prevent spread.", "Monitor for pneumonia/encephalitis (seek care)."]
  avoid_notes := ["Avoid contact with unvaccinated and immunocompromised persons."]
  prevention := ["MMR vaccination", "Isolation during infectious period"]
  red_flags_specific := ["Breathing difficulty", "Persistent high fever", "Altered consciousness", "Seizures"]
  keywords := ["rubeola"]

/-- The six records, in the order of the module-level `add_disease` calls. -/
def kbDiseases : List DiseaseInfo := [covid19, influenza, dengue, malaria, cholera, measles]

/-- The knowledge-base dictionary built by the module-level registration
calls, in source order. -/
def KB : List (String × DiseaseInfo) := kbDiseases.foldl (fun m d => add_disease d m) []

/-- The values of a dict, in key-insertion order (`m.values()`). -/
def dictValues (m : List (String × DiseaseInfo)) : List DiseaseInfo := m.map (fun p => p.2)

/-- Deduplicate records by canonical name, keeping first-occurrence order
(the dict comprehension at the head of the matcher). -/
def dedupByName (vs : List DiseaseInfo) : List DiseaseInfo :=
  dictValues (vs.foldl (fun m v => dictInsert v.name v m) [])

/-- The candidate records the matcher iterates over. -/
def candidates : List DiseaseInfo := dedupByName (dictValues KB)

/-- Membership in the regex class `[a-zA-Z]`, by code point. -/
def asciiAlpha (c : Char) : Bool :=
  (65 ≤ c.toNat && c.toNat ≤ 90) || (97 ≤ c.toNat && c.toNat ≤ 122)

/-- Membership in `[a-z]`, by code point. -/
def asciiLower (c : Char) : Bool := 97 ≤ c.toNat && c.toNat ≤ 122

/-- Split off the leading maximal run of letters (the characters the
regex engine consumes for one `[a-zA-Z]+` match). -/
def tokRun : List Char → List Char × List Char
  | [] => ([], [])
  | c :: cs =>
    if asciiAlpha c then ((c :: (tokRun cs).1), (tokRun cs).2) else ([], c :: cs)

theorem tokRun_snd_length (l : List Char) : (tokRun l).2.length ≤ l.length := by
  induction l with
  | nil => simp [tokRun]
  | cons c cs ih =>
    simp only [tokRun]
    split
    · simpa using Nat.le_succ_of_le ih
    · simp

/-- All maximal letter runs of a character list, left to right
(`re.findall` of `[a-zA-Z]+`). -/
def tokensAux : List Char → List (List Char)
  | [] => []
  | c :: cs =>
    if asciiAlpha c then (c :: (tokRun cs).1) :: tokensAux (tokRun cs).2
    else tokensAux cs
termination_by l => l.length
decreasing_by
  · have := tokRun_snd_length cs
    simp only [List.length_cons]
    omega
  · simp [List.length_cons]

/-- Function `tokenize`: lowercase the text, then extract the maximal letter runs
(`re.findall` of `[a-zA-Z]+` over `text.lower()`). -/
def tokenize (text : String) : List (List Char) := tokensAux (lowerList text)

/-- Contiguous-substring test on character lists (Python `in` on strings). -/
def isSubstr : List Char → List Char → Bool
  | n, [] => n.isEmpty
  | n, c :: t => n.isPrefixOf (c :: t) || isSubstr n t

/-- One phrase matches if some token is a substring of the lowercased
phrase or the lowercased phrase is a substring of some token
(`any(t in s.lower() or s.lower() in t for t in tokens)`). -/
def phraseHit (tokens : List (List Char)) (s : String) : Bool :=
  tokens.any (fun t => isSubstr t (lowerList s) || isSubstr (lowerList s) t)

/-- The per-disease raw text score: the loop adds 2 for each phrase of
`common_symptoms + keywords` that matches a token, then 3 more if the
lowercased canonical name occurs in the lowercased input text. -/
def diseaseTextScore (d : DiseaseInfo) (text : String) : Nat :=
  let tokens := tokenize text
  let base := (d.common_symptoms ++ d.keywords).foldl
    (fun sc s => if phraseHit tokens s then sc + 2 else sc) 0
  if isSubstr (lowerList d.name) (lowerList text) then base + 3 else base

/-- The `(disease, score)` pairs accumulated by the matcher loop. -/
def scoredList (text : String) : List (DiseaseInfo × Nat) :=
  candidates.map (fun d => (d, diseaseTextScore d text))

/-- The sort order `key=lambda x: (-x[1], x[0].name)`: score descending,
then canonical name ascending. -/
def scoreLe (a b : DiseaseInfo × Nat) : Bool :=
  decide (b.2 < a.2) || (decide (a.2 = b.2) && decide (a.1.name ≤ b.1.name))

/-- The scored pairs after the sort. -/
def sortedScores (text : String) : List (DiseaseInfo × Nat) :=
  (scoredList text).mergeSort scoreLe

/-- Truthiness of `text.strip()`: the text has a non-whitespace character. -/
def hasContent (text : String) : Bool := text.data.any (fun c => !c.isWhitespace)

/-- Function `match_diseases_from_text`: score every candidate, sort, drop the
zero scores when the input is non-blank, and keep the first `top_k`. -/
def match_diseases_from_text (text : String) (top_k : Nat := 3) :
    List (DiseaseInfo × Nat) :=
  let sorted := sortedScores text
  let filtered := if hasContent text then sorted.filter (fun p => decide (0 < p.2)) else sorted
  filtered.take top_k

/-- The urgency bands, most to least severe. -/
inductive Band where
  | emergency
  | urgent
  | prompt48
  | homeCare
deriving DecidableEq

/-- Modelled from the spec: the named dehydration-severity boolean flags
consulted by the triage classifier (the classifier body is cut off in
the source file after the first guard). -/
structure DehydrationFlags where
  severe_dehydration : Bool := false
  moderate_dehydration : Bool := false
deriving DecidableEq

/-- Modelled from the spec: the fixed red-flag symptom-tag set of the
Emergency guard. -/
def redFlagTags : List String :=
  ["shortness_breath", "confusion", "chest_pain", "bleeding",
   "mucosal_bleed", "severe_abdominal_pain", "persistent_vomiting"]

/-- Modelled from the spec: the triage classifier `classify`, an ordered
ladder of guards where the first matching guard wins; the source file is
truncated inside `assess_risk_level`, so the guards follow the spec
(Emergency, Urgent, Prompt clinic visit, Home care fallback). -/
def classify (selectedSymptoms : List String) (flags : DehydrationFlags)
    (daysSick comorbidCount : Nat) : Band × List String :=
  if selectedSymptoms.any (fun t => redFlagTags.contains t) || flags.severe_dehydration then
    (.emergency, ["Seek emergency care immediately; do not delay."])
  else if (selectedSymptoms.contains ("fever") && decide (3 ≤ daysSick))
      || selectedSymptoms.contains ("shortness_breath")
      || (flags.moderate_dehydration && decide (1 ≤ daysSick)) then
    (.urgent, ["Arrange in-person evaluation within 24 hours; escalate to emergency if worsening."])
  else if decide (2 ≤ comorbidCount)
      && (selectedSymptoms.contains ("fever") || selectedSymptoms.contains ("cough")) then
    (.prompt48, ["Book a visit within 48 hours, monitor closely."])
  else
    (.homeCare, ["Rest, fluids, monitor; escalate if new red flags appear or symptoms persist."])

/-- Modelled from the spec: a disease record as seen by the structured
scoring engine — canonical name, symptom-tag set and context-tag set
(the engine itself is absent from the truncated source file). -/
structure ScoreRecord where
  name : String
  symptoms : List String
  context : List String
deriving DecidableEq

/-- Modelled from the spec: the raw overlap score
`2 × |symptoms ∩ selectedSymptoms| + 1 × |context ∩ selectedExposures|`. -/
def rawScore (r : ScoreRecord) (selSym selExp : List String) : Nat :=
  2 * r.symptoms.countP (fun t => selSym.contains t)
    + r.context.countP (fun t => selExp.contains t)

/-- Modelled from the spec: the maximum raw score over all diseases. -/
def maxRaw (rs : List ScoreRecord) (selSym selExp : List String) : Nat :=
  rs.foldr (fun r m => max (rawScore r selSym selExp) m) 0

/-- Modelled from the spec: normalize a raw score against the maximum —
0 when the maximum is 0 (no division by zero), otherwise
`round(100 × raw / maxRaw)` (nearest integer, halves up). -/
def pct (raw m : Nat) : Nat := if m = 0 then 0 else (200 * raw + m) / (2 * m)

/-- Modelled from the spec: `computeScores`, mapping each disease to its
normalized percentage. -/
def computeScores (rs : List ScoreRecord) (selSym selExp : List String) :
    List (String × Nat) :=
  rs.map (fun r => (r.name, pct (rawScore r selSym selExp) (maxRaw rs selSym selExp)))

/-- Modelled from the spec: knowledge-base lookup by canonical name or
alias in the one shared case-insensitive namespace — dictionary access
by lowercased key (only the registration side of the registry appears
in the truncated source file). -/
def lookup (kb : List (String × DiseaseInfo)) (q : String) : Option DiseaseInfo :=
  dictGet (strLower q) kb

/-- A test record claiming the canonical name Dup. -/
def dupA : DiseaseInfo :=
  ⟨"Dup", ["a"], "", "", [], "", [], [], [], [], [], []⟩

/-- A second, distinct test record claiming the same canonical name. -/
def dupB : DiseaseInfo :=
  ⟨"Dup", ["b"], "", "", [], "", [], [], [], [], [], []⟩

theorem dictGet_insert_self (k : String) (v : DiseaseInfo)
    (m : List (String × DiseaseInfo)) : dictGet k (dictInsert k v m) = some v := by
  induction m with
  | nil => simp [dictInsert, dictGet]
  | cons p rest ih =>
    obtain ⟨k₀, v₀⟩ := p
    by_cases hk : k₀ = k
    · simp [dictInsert, hk, dictGet]
    · simp [dictInsert, hk, dictGet, ih]

theorem dictGet_insert_ne (k k₁ : String) (v : DiseaseInfo)
    (m : List (String × DiseaseInfo)) (hne : k₁ ≠ k) :
    dictGet k₁ (dictInsert k v m) = dictGet k₁ m := by
  induction m with
  | nil => simp [dictInsert, dictGet, Ne.symm hne]
  | cons p rest ih =>
    obtain ⟨k₀, v₀⟩ := p
    simp only [dictInsert]
    split
    · subst_vars
      simp [dictGet, Ne.symm hne]
    · simp only [dictGet]
      split
      · rfl
      · exact ih

theorem foldl_insert_pres (d : DiseaseInfo) (ks : List String)
    (m : List (String × DiseaseInfo)) (q : String)
    (h : dictGet q m = some d) :
    dictGet q (ks.foldl (fun m k => dictInsert (strLower k) d m) m) = some d := by
  induction ks generalizing m with
  | nil => simpa using h
  | cons k ks ih =>
    simp only [List.foldl_cons]
    apply ih
    by_cases hk : q = strLower k
    · subst hk
      exact dictGet_insert_self ..
    · rw [dictGet_insert_ne _ _ _ _ hk]
      exact h

theorem foldl_insert_mem (d : DiseaseInfo) (ks : List String)
    (m : List (String × DiseaseInfo)) (k : String) (hk : k ∈ ks) :
    dictGet (strLower k)
      (ks.foldl (fun m k => dictInsert (strLower k) d m) m) = some d := by
  induction ks generalizing m with
  | nil => cases hk
  | cons k₁ ks ih =>
    simp only [List.foldl_cons]
    rcases List.mem_cons.mp hk with h | h
    · subst h
      exact foldl_insert_pres d ks _ _ (dictGet_insert_self ..)
    · exact ih _ h

theorem rawScore_le_maxRaw (rs : List ScoreRecord) (s e : List String)
    (r : ScoreRecord) (hr : r ∈ rs) : rawScore r s e ≤ maxRaw rs s e := by
  induction rs with
  | nil => cases hr
  | cons r₀ rest ih =>
    simp only [maxRaw, List.foldr_cons]
    rcases List.mem_cons.mp hr with h | h
    · subst h
      exact Nat.le_max_left ..
    · exact Nat.le_trans (ih h) (Nat.le_max_right ..)

theorem maxRaw_cons (r₀ : ScoreRecord) (rest : List ScoreRecord) (s e : List String) :
    maxRaw (r₀ :: rest) s e = max (rawScore r₀ s e) (maxRaw rest s e) := rfl

theorem maxRaw_attained (rs : List ScoreRecord) (s e : List String)
    (h : maxRaw rs s e ≠ 0) : ∃ r ∈ rs, rawScore r s e = maxRaw rs s e := by
  induction rs with
  | nil => simp [maxRaw] at h
  | cons r₀ rest ih =>
    rw [maxRaw_cons] at h ⊢
    rcases Nat.le_total (rawScore r₀ s e) (maxRaw rest s e) with hle | hle
    · rw [Nat.max_eq_right hle] at h ⊢
      obtain ⟨r, hr, heq⟩ := ih h
      exact ⟨r, List.mem_cons_of_mem _ hr, heq⟩
    · rw [Nat.max_eq_left hle]
      exact ⟨r₀, List.mem_cons_self .., rfl⟩

theorem pct_le_100 (raw m : Nat) (h : raw ≤ m) : pct raw m ≤ 100 := by
  unfold pct
  split
  · omega
  · rename_i hm
    have h2 : 0 < 2 * m := by omega
    have : (200 * raw + m) / (2 * m) < 101 := by
      rw [Nat.div_lt_iff_lt_mul h2]
      omega
    omega

theorem pct_self (m : Nat) (h : m ≠ 0) : pct m m = 100 := by
  unfold pct
  rw [if_neg h]
  have h2 : 0 < 2 * m := by omega
  have hub : (200 * m + m) / (2 * m) < 101 := by
    rw [Nat.div_lt_iff_lt_mul h2]
    omega
  have hlb : 100 ≤ (200 * m + m) / (2 * m) := by
    rw [Nat.le_div_iff_mul_le h2]
    omega
  omega

theorem foldl_score_eq (p : String → Bool) (l : List String) (acc : Nat) :
    l.foldl (fun sc s => if p s then sc + 2 else sc) acc = acc + 2 * l.countP p := by
  induction l generalizing acc with
  | nil => simp
  | cons s rest ih =>
    simp only [List.foldl_cons, List.countP_cons]
    by_cases hp : p s
    · rw [if_pos hp, ih, if_pos hp]
      omega
    · rw [if_neg hp, ih]
      simp [hp]

theorem scoreLe_total (a b : DiseaseInfo × Nat) : scoreLe a b || scoreLe b a := by
  simp only [scoreLe, Bool.or_eq_true, Bool.and_eq_true, decide_eq_true_eq]
  rcases Nat.lt_trichotomy a.2 b.2 with h | h | h
  · tauto
  · rcases le_total a.1.name b.1.name with hn | hn
    · exact Or.inl (Or.inr ⟨h, hn⟩)
    · exact Or.inr (Or.inr ⟨h.symm, hn⟩)
  · tauto

theorem scoreLe_trans (a b c : DiseaseInfo × Nat) :
    scoreLe a b → scoreLe b c → scoreLe a c := by
  simp only [scoreLe, Bool.or_eq_true, Bool.and_eq_true, decide_eq_true_eq]
  rintro (h₁ | ⟨h₁, hn₁⟩) (h₂ | ⟨h₂, hn₂⟩)
  · exact Or.inl (Nat.lt_trans h₂ h₁)
  · exact Or.inl (h₂ ▸ h₁)
  · exact Or.inl (h₁ ▸ h₂)
  · exact Or.inr ⟨h₁.trans h₂, hn₁.trans hn₂⟩

theorem tokRun_fst_alpha (l : List Char) : ∀ c ∈ (tokRun l).1, asciiAlpha c = true := by
  induction l with
  | nil => simp [tokRun]
  | cons c₀ cs ih =>
    simp only [tokRun]
    split
    · intro c hc
      rcases List.mem_cons.mp hc with h | h
      · subst h
        assumption
      · exact ih c h
    · simp

theorem tokRun_fst_subset (l : List Char) : ∀ c ∈ (tokRun l).1, c ∈ l := by
  induction l with
  | nil => simp [tokRun]
  | cons c₀ cs ih =>
    simp only [tokRun]
    split
    · intro c hc
      rcases List.mem_cons.mp hc with h | h
      · simp [h]
      · exact List.mem_cons_of_mem _ (ih c h)
    · simp

theorem tokRun_snd_subset (l : List Char) : ∀ c ∈ (tokRun l).2, c ∈ l := by
  induction l with
  | nil => simp [tokRun]
  | cons c₀ cs ih =>
    simp only [tokRun]
    split
    · intro c hc
      exact List.mem_cons_of_mem _ (ih c hc)
    · simp

theorem tokRun_snd_head (l : List Char) :
    (tokRun l).2 = [] ∨ ∃ c cs, (tokRun l).2 = c :: cs ∧ asciiAlpha c = false := by
  induction l with
  | nil => simp [tokRun]
  | cons c₀ cs ih =>
    simp only [tokRun]
    split
    · exact ih
    · rename_i h
      exact Or.inr ⟨c₀, cs, rfl, Bool.eq_false_iff.mpr h⟩

theorem splitOnP_eq_tokRun (l : List Char) :
    l.splitOnP (fun c => !asciiAlpha c) =
      (tokRun l).1 :: (match (tokRun l).2 with
        | [] => ([] : List (List Char))
        | _ :: rest => rest.splitOnP (fun c => !asciiAlpha c)) := by
  induction l with
  | nil => simp [tokRun, List.splitOnP_nil]
  | cons c cs ih =>
    rw [List.splitOnP_cons]
    by_cases hc : asciiAlpha c
    · simp only [hc, Bool.not_true, Bool.false_eq_true, if_false, ih, List.modifyHead_cons]
      simp [tokRun, hc]
    · simp only [hc, Bool.not_false, if_true]
      simp [tokRun, hc]

theorem tokensAux_eq_splitOnP : ∀ l : List Char,
    tokensAux l = (l.splitOnP (fun c => !asciiAlpha c)).filter (fun t => !t.isEmpty)
  | [] => by simp [tokensAux, List.splitOnP_nil]
  | c :: cs => by
    rw [List.splitOnP_cons]
    by_cases hc : asciiAlpha c
    · simp only [hc, Bool.not_true, Bool.false_eq_true, if_false, splitOnP_eq_tokRun cs,
        List.modifyHead_cons]
      rcases tokRun_snd_head cs with h0 | ⟨d, rest, hrest, hd⟩
      · rw [h0]
        simp [tokensAux, hc, h0]
      · rw [hrest]
        have ih1 := tokensAux_eq_splitOnP rest
        simp [tokensAux, hc, hrest, hd, ih1]
    · simp only [hc, Bool.not_false, if_true]
      have ih := tokensAux_eq_splitOnP cs
      simp [tokensAux, hc, ih]
termination_by l => l.length
decreasing_by
  · have hlen := tokRun_snd_length cs
    rw [hrest] at hlen
    simp only [List.length_cons] at hlen ⊢
    omega
  · simp [List.length_cons]

theorem tokensAux_sound : ∀ (l : List Char) (t : List Char), t ∈ tokensAux l →
    t ≠ [] ∧ ∀ c ∈ t, asciiAlpha c = true ∧ c ∈ l
  | [], t, ht => by simp [tokensAux] at ht
  | c :: cs, t, ht => by
    by_cases hc : asciiAlpha c
    · simp only [tokensAux, hc, if_true, List.mem_cons] at ht
      rcases ht with h | h
      · subst h
        refine ⟨by simp, ?_⟩
        intro c₁ hc₁
        rcases List.mem_cons.mp hc₁ with h₁ | h₁
        · subst h₁
          exact ⟨hc, List.mem_cons_self ..⟩
        · exact ⟨tokRun_fst_alpha cs c₁ h₁,
            List.mem_cons_of_mem _ (tokRun_fst_subset cs c₁ h₁)⟩
      · obtain ⟨hne, hall⟩ := tokensAux_sound _ t h
        refine ⟨hne, fun c₁ hc₁ => ?_⟩
        obtain ⟨ha, hm⟩ := hall c₁ hc₁
        exact ⟨ha, List.mem_cons_of_mem _ (tokRun_snd_subset cs c₁ hm)⟩
    · simp only [tokensAux, hc, if_false] at ht
      obtain ⟨hne, hall⟩ := tokensAux_sound cs t ht
      refine ⟨hne, fun c₁ hc₁ => ?_⟩
      obtain ⟨ha, hm⟩ := hall c₁ hc₁
      exact ⟨ha, List.mem_cons_of_mem _ hm⟩
termination_by l => l.length
decreasing_by
  · have hlen := tokRun_snd_length cs
    simp only [List.length_cons]
    omega
  · simp [List.length_cons]

theorem lowerChar_alpha_lower (c : Char) :
    asciiAlpha (lowerChar c) = true → asciiLower (lowerChar c) = true := by
  have hdef : lowerChar c =
      if 65 ≤ c.toNat ∧ c.toNat ≤ 90 then Char.ofNat (c.toNat + 32) else c := rfl
  rw [hdef]
  by_cases hcase : 65 ≤ c.toNat ∧ c.toNat ≤ 90
  · rw [if_pos hcase]
    obtain ⟨h1, h2⟩ := hcase
    intro _
    revert h1 h2
    generalize c.toNat = n
    intro h1 h2
    interval_cases n <;> decide
  · rw [if_neg hcase]
    intro h
    simp only [asciiAlpha, asciiLower, Bool.or_eq_true, Bool.and_eq_true,
      decide_eq_true_eq] at h ⊢
    omega

/-- Claim C1: whenever the selected symptom set contains a tag of the
fixed red-flag set (in particular `confusion`), the classifier returns
the Emergency band regardless of every other input, because the
Emergency guard is evaluated first and the first matching guard wins. -/
theorem claim_C1_red_flag_forces_emergency
    (sel : List String) (flags : DehydrationFlags) (daysSick comorbidCount : Nat)
    (t : String) (ht : t ∈ redFlagTags) (hsel : t ∈ sel) :
    (classify sel flags daysSick comorbidCount).1 = Band.emergency := by
  have hany : sel.any (fun t => redFlagTags.contains t) = true := by
    simp only [List.any_eq_true]
    exact ⟨t, hsel, by simpa using ht⟩
  have hcond : (sel.any (fun t => redFlagTags.contains t)
      || flags.severe_dehydration) = true := by
    simp only [Bool.or_eq_true]
    exact Or.inl hany
  unfold classify
  rw [if_pos hcond]

/-- Claim C1 witness: the selection {confusion} alone, with no
dehydration flags, daysSick = 0 and comorbidCount = 0, is classified
Emergency. -/
theorem claim_C1_witness :
    (classify ["confusion"] ⟨false, false⟩ 0 0).1 = Band.emergency :=
  claim_C1_red_flag_forces_emergency ["confusion"] ⟨false, false⟩ 0 0 ("confusion")
    (by decide) (by decide)

/-- Claim C5: the classifier is total — every input reaches one of the
four bands — and the all-empty input (no symptoms, no dehydration flags,
daysSick = 0, comorbidCount = 0) falls through to the Home-care band. -/
theorem claim_C5_totality_and_fallback :
    (∀ (sel : List String) (flags : DehydrationFlags) (daysSick comorbidCount : Nat),
      (classify sel flags daysSick comorbidCount).1 = Band.emergency ∨
      (classify sel flags daysSick comorbidCount).1 = Band.urgent ∨
      (classify sel flags daysSick comorbidCount).1 = Band.prompt48 ∨
      (classify sel flags daysSick comorbidCount).1 = Band.homeCare) ∧
    (classify [] ⟨false, false⟩ 0 0).1 = Band.homeCare := by
  constructor
  · intro sel flags daysSick comorbidCount
    unfold classify
    split
    · simp
    · split
      · simp
      · split <;> simp
  · decide

/-- Claim C2: `computeScores` yields all-zero percentages when the
maximum raw score is zero (no division by zero), every percentage is at
most 100, and whenever some disease has positive raw overlap at least
one percentage is exactly 100. -/
theorem claim_C2_computeScores_normalization
    (rs : List ScoreRecord) (s e : List String) :
    (maxRaw rs s e = 0 → ∀ p ∈ computeScores rs s e, p.2 = 0) ∧
    (∀ p ∈ computeScores rs s e, p.2 ≤ 100) ∧
    ((∃ r ∈ rs, 0 < rawScore r s e) → ∃ p ∈ computeScores rs s e, p.2 = 100) := by
  refine ⟨?_, ?_, ?_⟩
  · intro h0 p hp
    simp only [computeScores, List.mem_map] at hp
    obtain ⟨r, hr, rfl⟩ := hp
    simp [pct, h0]
  · intro p hp
    simp only [computeScores, List.mem_map] at hp
    obtain ⟨r, hr, rfl⟩ := hp
    exact pct_le_100 _ _ (rawScore_le_maxRaw rs s e r hr)
  · rintro ⟨r, hr, hpos⟩
    have hmax : maxRaw rs s e ≠ 0 := by
      have := rawScore_le_maxRaw rs s e r hr
      omega
    obtain ⟨r₀, hr₀, heq⟩ := maxRaw_attained rs s e hmax
    refine ⟨(r₀.name, pct (rawScore r₀ s e) (maxRaw rs s e)), ?_, ?_⟩
    · exact List.mem_map.mpr ⟨r₀, hr₀, rfl⟩
    · rw [heq]
      exact pct_self _ hmax

/-- Claim C2 witness: with one disease overlapping the selected symptom
`fever`, some percentage reaches exactly 100. -/
theorem claim_C2_witness :
    ∃ p ∈ computeScores [⟨"Flu", ["fever"], ["crowding"]⟩] ["fever"] [], p.2 = 100 :=
  (claim_C2_computeScores_normalization [⟨"Flu", ["fever"], ["crowding"]⟩] ["fever"] []).2.2
    ⟨⟨"Flu", ["fever"], ["crowding"]⟩, by decide, by decide⟩

/-- Claim C6 counterexample: two distinct records claiming the same
canonical name are both registered without any failure — `add_disease`
is a total function on dictionaries — and the second silently replaces
the first, so a lookup of the shared name returns only the later record.
This refutes the claim that a duplicate name/alias aborts
initialization and is never silently overwritten. -/
theorem claim_C6_counterexample :
    dupA ≠ dupB ∧
    add_disease dupB (add_disease dupA []) = [("dup", dupB)] ∧
    lookup (add_disease dupB (add_disease dupA [])) "Dup" = some dupB := by
  refine ⟨by decide, by decide, by decide⟩

/-- Claim C6 amended: registration never fails; inserting a record whose
lowercased name or alias keyword collides with an existing key silently
overwrites the earlier mapping, so after `add_disease d kb` every key of
`d` maps to `d` (last registration wins). -/
theorem claim_C6_amended_overwrite (kb : List (String × DiseaseInfo)) (d : DiseaseInfo) :
    dictGet (strLower d.name) (add_disease d kb) = some d ∧
    ∀ k ∈ d.keywords, dictGet (strLower k) (add_disease d kb) = some d := by
  constructor
  · exact foldl_insert_pres d d.keywords _ _ (dictGet_insert_self ..)
  · intro k hk
    exact foldl_insert_mem d d.keywords _ k hk

/-- Claim C6 amended witness: registering Influenza over an empty
dictionary makes its alias key `flu` map to the Influenza record. -/
theorem claim_C6_amended_witness :
    dictGet (strLower ("flu")) (add_disease influenza []) = some influenza :=
  (claim_C6_amended_overwrite [] influenza).2 ("flu") (by decide)

/-- Claim C7: for every registered disease, looking up any of its alias
keywords returns the same record as looking up its canonical name, in
one case-insensitive namespace; in particular `lookup("flu")` and
`lookup("Influenza")` return the same record. -/
theorem claim_C7_alias_resolution :
    (∀ d ∈ kbDiseases, ∀ k ∈ d.keywords,
      lookup KB k = lookup KB d.name ∧ lookup KB k = some d) ∧
    lookup KB ("flu") = lookup KB ("Influenza") ∧ lookup KB ("Influenza") = some influenza := by
  refine ⟨by decide, by decide, by decide⟩

/-- Claim C7 witness: the alias `flu` of the Influenza record resolves
to the same record as the canonical name. -/
theorem claim_C7_witness :
    lookup KB ("flu") = lookup KB influenza.name ∧ lookup KB ("flu") = some influenza :=
  claim_C7_alias_resolution.1 influenza (by decide) "flu" (by decide)

/-- Claim C3: the per-disease raw text score equals 2 for every phrase
of the symptoms-plus-aliases list matched bidirectionally against the
tokens (token inside lowercased phrase, or phrase inside a token), plus
3 more when the lowercased canonical name occurs in the lowercased
input text. -/
theorem claim_C3_text_score (d : DiseaseInfo) (text : String) :
    diseaseTextScore d text =
      2 * (d.common_symptoms ++ d.keywords).countP (phraseHit (tokenize text)) +
      (if isSubstr (lowerList d.name) (lowerList text) then 3 else 0) := by
  simp only [diseaseTextScore, foldl_score_eq]
  split <;> omega

/-- Claim C4: zero-scoring diseases are dropped exactly when the input
has a non-whitespace character; a whitespace-only input returns the
sorted list unfiltered; in both cases the output is the first `topK`
elements of the (possibly filtered) sorted list, so its length is at
most `topK`. -/
theorem claim_C4_filter_truncate (text : String) (topK : Nat) :
    (text.data.all (fun c => c.isWhitespace) = true →
      match_diseases_from_text text topK = (sortedScores text).take topK) ∧
    (text.data.all (fun c => c.isWhitespace) = false →
      match_diseases_from_text text topK =
        ((sortedScores text).filter (fun p => decide (0 < p.2))).take topK) ∧
    (match_diseases_from_text text topK).length ≤ topK := by
  have hc : hasContent text = !text.data.all (fun c => c.isWhitespace) := by
    simp [hasContent, List.any_eq_not_all_not]
  refine ⟨?_, ?_, ?_⟩
  · intro h
    simp only [match_diseases_from_text, hc, h, Bool.not_true, Bool.false_eq_true,
      if_false]
  · intro h
    simp only [match_diseases_from_text, hc, h, Bool.not_false, if_true]
  · simp only [match_diseases_from_text]
    exact List.length_take_le ..

/-- Claim C4 witness: for the non-blank input `fever` the zero scores
are filtered before truncation. -/
theorem claim_C4_witness :
    match_diseases_from_text ("fever") 3 =
      ((sortedScores ("fever")).filter (fun p => decide (0 < p.2))).take 3 :=
  (claim_C4_filter_truncate ("fever") 3).2.1 (by decide)

/-- Claim C8: the matcher output is sorted by score descending with ties
broken by canonical name ascending (the deterministic order of
`key=lambda x: (-x[1], x[0].name)`). -/
theorem claim_C8_sorted_output (text : String) (topK : Nat) :
    (match_diseases_from_text text topK).Pairwise
      (fun a b => b.2 < a.2 ∨ (a.2 = b.2 ∧ a.1.name ≤ b.1.name)) := by
  have hsorted : (sortedScores text).Pairwise (fun a b => scoreLe a b = true) :=
    List.sorted_mergeSort scoreLe_trans scoreLe_total (scoredList text)
  have base : (sortedScores text).Pairwise
      (fun a b => b.2 < a.2 ∨ (a.2 = b.2 ∧ a.1.name ≤ b.1.name)) := by
    refine hsorted.imp ?_
    intro a b h
    simpa [scoreLe, Bool.or_eq_true, Bool.and_eq_true, decide_eq_true_eq] using h
  simp only [match_diseases_from_text]
  by_cases h : hasContent text
  · rw [if_pos h]
    exact List.Pairwise.sublist (List.take_sublist ..) (base.filter _)
  · rw [if_neg h]
    exact List.Pairwise.sublist (List.take_sublist ..) base

/-- Claim C10: the matcher deduplicates candidates by canonical name
before scoring, so the candidate list and every matcher output list
contain each disease name at most once. -/
theorem claim_C10_no_duplicate_names (text : String) (topK : Nat) :
    (candidates.map (fun d => d.name)).Nodup ∧
    ((match_diseases_from_text text topK).map (fun p => p.1.name)).Nodup := by
  have hnd : (candidates.map (fun d => d.name)).Nodup := by decide
  refine ⟨hnd, ?_⟩
  have h1 : (scoredList text).map (fun p => p.1.name) = candidates.map (fun d => d.name) := by
    simp [scoredList, List.map_map, Function.comp]
  have hperm : List.Perm ((sortedScores text).map (fun p => p.1.name))
      ((scoredList text).map (fun p => p.1.name)) :=
    (List.mergeSort_perm (scoredList text) scoreLe).map _
  have hnd2 : ((sortedScores text).map (fun p => p.1.name)).Nodup :=
    hperm.nodup_iff.mpr (h1 ▸ hnd)
  simp only [match_diseases_from_text]
  by_cases h : hasContent text
  · rw [if_pos h]
    exact List.Nodup.sublist
      (((List.take_sublist ..).trans (List.filter_sublist ..)).map _) hnd2
  · rw [if_neg h]
    exact List.Nodup.sublist ((List.take_sublist ..).map _) hnd2

/-- Claim C9: `tokenize` returns exactly the maximal alphabetic runs of
the lowercased input (splitting at every non-letter and discarding the
empty chunks), and every token is non-empty and consists only of
lowercase letters. -/
theorem claim_C9_tokenize_runs (text : String) :
    tokenize text =
      ((lowerList text).splitOnP (fun c => !asciiAlpha c)).filter (fun t => !t.isEmpty) ∧
    ∀ t ∈ tokenize text, t ≠ [] ∧ ∀ c ∈ t, asciiLower c = true := by
  constructor
  · exact tokensAux_eq_splitOnP (lowerList text)
  · intro t ht
    obtain ⟨hne, hall⟩ := tokensAux_sound (lowerList text) t ht
    refine ⟨hne, fun c hc => ?_⟩
    obtain ⟨ha, hm⟩ := hall c hc
    simp only [lowerList, List.mem_map] at hm
    obtain ⟨c₀, hc₀, rfl⟩ := hm
    exact lowerChar_alpha_lower c₀ ha

/-- Claim C9 witness: the token `fever` of the input `FeVer 99!` is
non-empty and all-lowercase. -/
theorem claim_C9_witness :
    (['f', 'e', 'v', 'e', 'r'] : List Char) ≠ [] ∧
    ∀ c ∈ (['f', 'e', 'v', 'e', 'r'] : List Char), asciiLower c = true :=
  (claim_C9_tokenize_runs ("FeVer 99!")).2 ['f', 'e', 'v', 'e', 'r'] (by
    rw [show tokenize ("FeVer 99!") =
      ((lowerList ("FeVer 99!")).splitOnP (fun c => !asciiAlpha c)).filter
        (fun t => !t.isEmpty) from tokensAux_eq_splitOnP _]
    decide)
